import Mathlib

/-!
Shallow embedding of `src/calsplit.py` (Calendar-ICS-Splitter).

The splitter itself (`get_event_date`, `split_ics_file`) is translated line by
line from the source.  The `icalendar` library (Record Model, Parser,
Serializer of the spec, §4.1-§4.4) is third-party code not present in `src/`,
so those parts are modelled from the spec, each marked `Modelled from the
spec:` in its doc comment.
-/

namespace CalSplit

/-- Naive (timezone-free) point-in-time value, modelling Python `datetime`
after timezone stripping: a calendar date (`days`, order-isomorphic to the
proleptic ordinal) plus a time-of-day (`secs`).  Comparison is lexicographic,
as for Python `datetime`. -/
structure NaiveDateTime where
  days : Nat
  secs : Nat
deriving DecidableEq, Repr

/-- Models `datetime.min` (line 40): the minimum representable point-in-time
value of the type. -/
def datetime_min : NaiveDateTime := ⟨0, 0⟩

/-- Lexicographic order on `NaiveDateTime`, modelling Python `datetime`
comparison used by `events.sort(key=...)` (line 61). -/
def NaiveDateTime.le (a b : NaiveDateTime) : Bool :=
  Nat.blt a.days b.days || (a.days == b.days && Nat.ble a.secs b.secs)

/-- Typed date payload of an event property (`event[field].dt`, line 31): a
pure calendar date, a naive datetime, or a timezone-aware datetime carrying a
wall-clock reading together with a UTC offset. -/
inductive DateValue where
  | dateOnly (d : Nat)
  | naiveDT (dt : NaiveDateTime)
  | awareDT (dt : NaiveDateTime) (offset : Int)
deriving DecidableEq, Repr

/-- Lines 32-39: a datetime with a timezone is made naive by dropping the
offset (`dt.replace(tzinfo=None)`, keeping the wall-clock reading); a pure
date is combined with midnight (`datetime.combine(dt, datetime.min.time())`);
a naive datetime is returned as is. -/
def convert_dt : DateValue → NaiveDateTime
  | .naiveDT dt => dt
  | .awareDT dt _ => dt
  | .dateOnly d => ⟨d, 0⟩

/-- Event record (`VEVENT`).  Property values carry type information
(spec §3); the parser types `DTSTART`/`DTSTAMP`/`CREATED` as date payloads
(`dateProps`) and every other property as text (`textProps`).  Equality is
structural, modelling Python `==` on `icalendar` components (line 91). -/
structure VEvent where
  dateProps : List (String × DateValue)
  textProps : List (String × String)
deriving DecidableEq, Repr

/-- Helper for `get_event_date`: the `for date_field in [...]` loop of
lines 29-39, returning on the first present field. -/
def get_event_date_fields : List String → VEvent → NaiveDateTime
  | [], _ => datetime_min
  | f :: rest, e =>
    match e.dateProps.lookup f with
    | some dv => convert_dt dv
    | none => get_event_date_fields rest e

/-- Lines 27-40: extract the sort key of an event by examining `DTSTART`,
`DTSTAMP`, `CREATED` in that order; `datetime.min` when none is present. -/
def get_event_date (e : VEvent) : NaiveDateTime :=
  get_event_date_fields ["DTSTART", "DTSTAMP", "CREATED"] e

/-- Calendar sub-component: an event, or an opaque non-event component
(spec §3, preserved by the parser but never re-emitted). -/
inductive Component where
  | vevent (e : VEvent)
  | other (oname : String) (payload : List String)
deriving DecidableEq, Repr

/-- Root calendar container: ordered top-level properties and ordered
sub-components (spec §3). -/
structure VCalendar where
  props : List (String × String)
  comps : List Component
deriving DecidableEq, Repr

/-- Line 55: `[comp for comp in cal.walk() if comp.name == 'VEVENT']`. -/
def events_of (cal : VCalendar) : List VEvent :=
  cal.comps.filterMap fun c =>
    match c with
    | .vevent e => some e
    | .other _ _ => none

/-- Lines 64-67: precompute the replicated top-level properties, keeping among
`VERSION`, `PRODID`, `CALSCALE`, `METHOD` exactly those present in the input
calendar, in that fixed order. -/
def cal_properties (cal : VCalendar) : List (String × String) :=
  ["VERSION", "PRODID", "CALSCALE", "METHOD"].filterMap fun a =>
    match cal.props.lookup a with
    | some v => some (a, v)
    | none => none

/-- Decimal rendering of an integer, used by the serializer model. -/
def intRepr : Int → String
  | .ofNat n => Nat.repr n
  | .negSucc n => "-" ++ Nat.repr (n + 1)

/-- Modelled from the spec: rendering of a date payload by the Serializer
(§4.4, `icalendar` library code not in `src/`); any fixed deterministic
rendering satisfies the contract. -/
def DateValue.render : DateValue → String
  | .dateOnly d => Nat.repr d
  | .naiveDT dt => Nat.repr dt.days ++ "T" ++ Nat.repr dt.secs
  | .awareDT dt off => Nat.repr dt.days ++ "T" ++ Nat.repr dt.secs ++ "Z" ++ intRepr off

/-- Modelled from the spec: Serializer (§4.4) for one event
(`icalendar` `Component.to_ical`, library code not in `src/`): a
`BEGIN:VEVENT`/`END:VEVENT` block listing every property verbatim. -/
def VEvent.to_ical (e : VEvent) : String :=
  "BEGIN:VEVENT\n"
  ++ String.join (e.dateProps.map fun p => p.1 ++ ":" ++ p.2.render ++ "\n")
  ++ String.join (e.textProps.map fun p => p.1 ++ ":" ++ p.2 ++ "\n")
  ++ "END:VEVENT\n"

/-- Modelled from the spec: Serializer (§4.4) for one sub-component. -/
def Component.to_ical : Component → String
  | .vevent e => e.to_ical
  | .other oname payload =>
    "BEGIN:" ++ oname ++ "\n" ++ String.join (payload.map (· ++ "\n"))
      ++ "END:" ++ oname ++ "\n"

/-- Modelled from the spec: Serializer (§4.4) for a whole calendar document
(`icalendar` `Calendar.to_ical`, library code not in `src/`): deterministic
canonical bytes holding exactly the given properties and components in the
given order. -/
def VCalendar.to_ical (c : VCalendar) : String :=
  "BEGIN:VCALENDAR\n"
  ++ String.join (c.props.map fun p => p.1 ++ ":" ++ p.2 ++ "\n")
  ++ String.join (c.comps.map Component.to_ical)
  ++ "END:VCALENDAR\n"

/-- Lines 69-76: build a fresh calendar carrying the precomputed top-level
properties and the given events, in order. -/
def create_calendar_with_events (props : List (String × String))
    (event_list : List VEvent) : VCalendar :=
  ⟨props, event_list.map Component.vevent⟩

/-- Split a character stream into lines at `\n`, the physical-line scan of the
parser model. -/
def splitLinesAux : List Char → List Char → List (List Char)
  | [], acc => [acc.reverse]
  | c :: cs, acc =>
    if c = '\n' then acc.reverse :: splitLinesAux cs []
    else splitLinesAux cs (c :: acc)

/-- Content lines of an input: split at `\n`, drop a trailing `\r` of each
line, drop empty lines. -/
def ics_lines (s : String) : List (List Char) :=
  ((splitLinesAux s.data []).map fun l =>
    if l.getLast? = some '\r' then l.dropLast else l).filter (· ≠ [])

/-- Split a line at its first colon into name and value; `none` when the line
has no colon. -/
def split_colon : List Char → Option (List Char × List Char)
  | [] => none
  | c :: cs =>
    if c = ':' then some ([], cs)
    else
      match split_colon cs with
      | some (k, v) => some (c :: k, v)
      | none => none

/-- Read a non-empty all-digit character list as a decimal number. -/
def digits_to_nat (cs : List Char) : Option Nat :=
  if cs.isEmpty then none
  else if cs.all Char.isDigit then
    some (cs.foldl (fun n c => n * 10 + (c.toNat - 48)) 0)
  else none

/-- Modelled from the spec: the typed date payloads the Parser (§4.2) builds
for `DTSTART`/`DTSTAMP`/`CREATED` values — `YYYYMMDD` is a pure date,
`YYYYMMDDTHHMMSS` a naive datetime, `YYYYMMDDTHHMMSSZ` a timezone-aware
datetime (UTC offset 0); anything else fails to parse. -/
def parse_date_value (cs : List Char) : Option DateValue :=
  if cs.length = 8 then
    (digits_to_nat cs).map DateValue.dateOnly
  else if cs.length = 15 ∧ cs[8]? = some 'T' then
    match digits_to_nat (cs.take 8), digits_to_nat (cs.drop 9) with
    | some d, some t => some (.naiveDT ⟨d, t⟩)
    | _, _ => none
  else if cs.length = 16 ∧ cs[8]? = some 'T' ∧ cs.getLast? = some 'Z' then
    match digits_to_nat (cs.take 8), digits_to_nat ((cs.drop 9).take 6) with
    | some d, some t => some (.awareDT ⟨d, t⟩ 0)
    | _, _ => none
  else none

/-- Parser state: before `BEGIN:VCALENDAR`, inside the calendar, inside an
event, inside a non-event component, finished, or failed. -/
inductive PState where
  | start
  | inCal (props : List (String × String)) (comps : List Component)
  | inEvent (props : List (String × String)) (comps : List Component)
      (dps : List (String × DateValue)) (tps : List (String × String))
  | inOther (props : List (String × String)) (comps : List Component)
      (oname : String) (payload : List String)
  | done (cal : VCalendar)
  | failed (msg : String)
deriving Repr

/-- Modelled from the spec: one line-step of the Parser (§4.2).  Structured
text is consumed line by line; `BEGIN:`/`END:` lines open and close
components, other lines are `NAME:VALUE` properties; any line that fits no
rule, an unterminated container, or a malformed date value is a
`MalformedDocument` failure. -/
def step_line (st : PState) (line : List Char) : PState :=
  match st with
  | .failed msg => .failed msg
  | .done _ => .failed "MalformedDocument: content after END:VCALENDAR"
  | .start =>
    if line = "BEGIN:VCALENDAR".data then .inCal [] []
    else .failed "MalformedDocument: missing BEGIN:VCALENDAR"
  | .inCal props comps =>
    match split_colon line with
    | none => .failed "MalformedDocument: line without colon"
    | some (k, v) =>
      if k = "BEGIN".data then
        if v = "VEVENT".data then .inEvent props comps [] []
        else .inOther props comps (String.mk v) []
      else if k = "END".data then
        if v = "VCALENDAR".data then .done ⟨props, comps⟩
        else .failed "MalformedDocument: mismatched END"
      else .inCal (props ++ [(String.mk k, String.mk v)]) comps
  | .inEvent props comps dps tps =>
    match split_colon line with
    | none => .failed "MalformedDocument: line without colon"
    | some (k, v) =>
      if k = "END".data then
        if v = "VEVENT".data then .inCal props (comps ++ [.vevent ⟨dps, tps⟩])
        else .failed "MalformedDocument: mismatched END"
      else if k = "BEGIN".data then
        .failed "MalformedDocument: nested component in VEVENT"
      else
        let key := String.mk k
        if key = "DTSTART" ∨ key = "DTSTAMP" ∨ key = "CREATED" then
          match parse_date_value v with
          | some dv => .inEvent props comps (dps ++ [(key, dv)]) tps
          | none => .failed "MalformedDocument: bad date value"
        else .inEvent props comps dps (tps ++ [(key, String.mk v)])
  | .inOther props comps oname payload =>
    match split_colon line with
    | some (k, v) =>
      if k = "END".data ∧ String.mk v = oname then
        .inCal props (comps ++ [.other oname payload])
      else .inOther props comps oname (payload ++ [String.mk line])
    | none => .inOther props comps oname (payload ++ [String.mk line])

/-- Modelled from the spec: the Parser (§4.2, `icalendar`
`Calendar.from_ical`, library code not in `src/`, called at line 52).
Converts raw structured-text bytes into a root `VCalendar`; fails with a
`MalformedDocument` error on any input that is not a well-formed calendar. -/
def from_ical (contents : String) : Except String VCalendar :=
  match (ics_lines contents).foldl step_line .start with
  | .done cal => .ok cal
  | .failed msg => .error msg
  | _ => .error "MalformedDocument: unterminated calendar"

/-- Index of the last occurrence of a character, if any. -/
def rfind_idx (c : Char) (cs : List Char) : Option Nat :=
  ((cs.enum.filter fun p => p.2 = c).map Prod.fst).getLast?

/-- Models `os.path.splitext` (POSIX, line 81): split off the extension at the
last dot, provided that dot lies in the last path component and that component
has a non-dot character before the dot (so dotfiles have no extension).  The
directory part stays in the root. -/
def splitext (p : String) : String × String :=
  let cs := p.data
  let filenameStart :=
    match rfind_idx '/' cs with
    | some i => i + 1
    | none => 0
  match rfind_idx '.' cs with
  | some dotIdx =>
    if filenameStart ≤ dotIdx ∧
        ((cs.drop filenameStart).take (dotIdx - filenameStart)).any (· ≠ '.') then
      (String.mk (cs.take dotIdx), String.mk (cs.drop dotIdx))
    else (p, "")
  | none => (p, "")

/-- Lines 98 and 115: `f"{base_name}_part{file_counter}.ics"`.  The extension
is the literal `.ics`. -/
def output_file_name (base_name : String) (file_counter : Nat) : String :=
  base_name ++ "_part" ++ Nat.repr file_counter ++ ".ics"

/-- One output file of a split: its name, the batch of events it holds, and
its serialized bytes (the string written at lines 100/119). -/
structure OutputFile where
  fname : String
  events : List VEvent
  bytes : String
deriving DecidableEq, Repr

/-- Outcome of one `split_ics_file` run: a parse failure (the exception of
line 52 propagating, no file written), the no-events early return of
lines 56-58 (success, no file written), or normal completion with the list of
files written, in write order. -/
inductive SplitResult where
  | parseError (msg : String)
  | noEvents
  | ok (files : List OutputFile)
deriving DecidableEq, Repr

/-- Files actually written in a run. -/
def SplitResult.filesWritten : SplitResult → List OutputFile
  | .ok files => files
  | _ => []

/-- A run terminates successfully unless the parser raised. -/
def SplitResult.isSuccess : SplitResult → Bool
  | .parseError _ => false
  | _ => true

/-- The comparison used by the sort at line 61: compare events by their
extracted dates. -/
def event_le (a b : VEvent) : Bool :=
  (get_event_date a).le (get_event_date b)

/-- Line 61: `events.sort(key=get_event_date)` — a stable sort by the
extracted date.  Python `list.sort` is a stable sort, and for a comparison
derived from a key (a total preorder, see `event_le_trans` and
`event_le_total`) all stable sorts agree, so the embedding may use any stable
sort; insertion sort is used because it evaluates by kernel reduction. -/
def sort_events (events : List VEvent) : List VEvent :=
  events.insertionSort fun a b => event_le a b

/-- Lines 84-122: the batching loop over the sorted events, plus the final
flush.  Arguments `current_events` and `file_counter` are the loop variables
of lines 79-80; `last_event` is `events[-1]` (the comparison at line 91 is
Python `==`, value equality).  On `event :: rest` the event is appended, the
batch is serialized and measured; on trigger the just-appended event is
popped when the batch holds more than one event (line 93), the batch is
written, and the counter advances.  Note that line 106 re-evaluates
`len(current_events)` after the pop of line 94: when the pop shrank a
two-element batch to one element, the condition at line 106 is false and the
new batch is `[]`, so the popped event is dropped.  On `[]` the remaining
non-empty batch is written (lines 113-122). -/
def split_loop (props : List (String × String)) (base_name : String)
    (max_size : Nat) (last_event : Option VEvent) :
    List VEvent → List VEvent → Nat → List OutputFile
  | [], current_events, file_counter =>
    if current_events.isEmpty then []
    else
      let final_cal := create_calendar_with_events props current_events
      [⟨output_file_name base_name file_counter, current_events, final_cal.to_ical⟩]
  | event :: rest, current_events, file_counter =>
    let appended := current_events ++ [event]
    let test_cal := create_calendar_with_events props appended
    let current_size := test_cal.to_ical.length
    if current_size ≥ max_size ∨ some event = last_event then
      if current_size ≥ max_size ∧ appended.length > 1 then
        let batch := appended.dropLast
        let write_cal := create_calendar_with_events props batch
        let next_batch := if current_size ≥ max_size ∧ batch.length > 1 then [event] else []
        ⟨output_file_name base_name file_counter, batch, write_cal.to_ical⟩
          :: split_loop props base_name max_size last_event rest next_batch (file_counter + 1)
      else
        ⟨output_file_name base_name file_counter, appended, test_cal.to_ical⟩
          :: split_loop props base_name max_size last_event rest [] (file_counter + 1)
    else
      split_loop props base_name max_size last_event rest appended file_counter

/-- Lines 42-122: the whole splitter.  `input_file` is the path, `contents`
the bytes read at line 52, `max_size` the effective byte limit computed at
line 48. -/
def split_ics_file (input_file : String) (contents : String)
    (max_size : Nat) : SplitResult :=
  match from_ical contents with
  | .error msg => .parseError msg
  | .ok cal =>
    let events := events_of cal
    if events.isEmpty then .noEvents
    else
      let sorted := sort_events events
      let props := cal_properties cal
      let base_name := (splitext input_file).1
      .ok (split_loop props base_name max_size sorted.getLast? sorted [] 1)

/-- Models line 48 for a configured limit given in whole bytes: the effective
limit is 95% of it, rounded down.  (The source computes
`int(max_size_mb * 1024 * 1024 * 0.95)` in floating point; all the size-bound
theorem needs is that the effective limit never exceeds the configured one,
which holds for the float computation as well since the double nearest 0.95
is below 1.) -/
def effective_max_size (limit_bytes : Nat) : Nat := limit_bytes * 95 / 100

/-- Follows claim C3's words, for comparison with `output_file_name`: the
input's base name with both the directory path and the extension removed,
then the part counter, then the input's original extension. -/
def claim_file_name (input_file : String) (k : Nat) : String :=
  let root := (splitext input_file).1
  let ext := (splitext input_file).2
  let base :=
    match rfind_idx '/' root.data with
    | some i => String.mk (root.data.drop (i + 1))
    | none => root
  base ++ "_part" ++ Nat.repr k ++ ext

/-- Follows claim C4's words, for comparison with `split_loop`: the identical
batching loop except that the flush trigger is reaching the effective limit or
being at the last position of the sorted event list, instead of the source's
value comparison of the current event with `events[-1]`. -/
def claim_split_loop (props : List (String × String)) (base_name : String)
    (max_size : Nat) :
    List VEvent → List VEvent → Nat → List OutputFile
  | [], current_events, file_counter =>
    if current_events.isEmpty then []
    else
      let final_cal := create_calendar_with_events props current_events
      [⟨output_file_name base_name file_counter, current_events, final_cal.to_ical⟩]
  | event :: rest, current_events, file_counter =>
    let appended := current_events ++ [event]
    let test_cal := create_calendar_with_events props appended
    let current_size := test_cal.to_ical.length
    if current_size ≥ max_size ∨ rest = [] then
      if current_size ≥ max_size ∧ appended.length > 1 then
        let batch := appended.dropLast
        let write_cal := create_calendar_with_events props batch
        let next_batch := if current_size ≥ max_size ∧ batch.length > 1 then [event] else []
        ⟨output_file_name base_name file_counter, batch, write_cal.to_ical⟩
          :: claim_split_loop props base_name max_size rest next_batch (file_counter + 1)
      else
        ⟨output_file_name base_name file_counter, appended, test_cal.to_ical⟩
          :: claim_split_loop props base_name max_size rest [] (file_counter + 1)
    else
      claim_split_loop props base_name max_size rest appended file_counter

/-- Example event: `DTSTART:20200101`, no other properties. -/
def evA : VEvent := ⟨[("DTSTART", DateValue.dateOnly 20200101)], []⟩

/-- Example event: `DTSTART:20200102`, no other properties. -/
def evB : VEvent := ⟨[("DTSTART", DateValue.dateOnly 20200102)], []⟩

/-- Example input holding exactly the event `evA`. -/
def one_contents : String :=
  "BEGIN:VCALENDAR\nBEGIN:VEVENT\nDTSTART:20200101\nEND:VEVENT\nEND:VCALENDAR\n"

/-- Example input holding the events `evA` then `evB`. -/
def two_contents : String :=
  "BEGIN:VCALENDAR\nBEGIN:VEVENT\nDTSTART:20200101\nEND:VEVENT\nBEGIN:VEVENT\nDTSTART:20200102\nEND:VEVENT\nEND:VCALENDAR\n"

/-- Example input holding two byte-identical copies of `evA`. -/
def dup_contents : String :=
  "BEGIN:VCALENDAR\nBEGIN:VEVENT\nDTSTART:20200101\nEND:VEVENT\nBEGIN:VEVENT\nDTSTART:20200101\nEND:VEVENT\nEND:VCALENDAR\n"

/-- Example input with properties but zero events. -/
def empty_contents : String :=
  "BEGIN:VCALENDAR\nVERSION:2.0\nEND:VCALENDAR\n"

/-- Example input with a `VERSION` property and the single event `evA`. -/
def ver_contents : String :=
  "BEGIN:VCALENDAR\nVERSION:2.0\nBEGIN:VEVENT\nDTSTART:20200101\nEND:VEVENT\nEND:VCALENDAR\n"

/-- The effective limit of line 48 never exceeds the configured limit. -/
theorem effective_max_size_le (limit_bytes : Nat) :
    effective_max_size limit_bytes ≤ limit_bytes := by
  unfold effective_max_size
  calc limit_bytes * 95 / 100 ≤ limit_bytes * 100 / 100 :=
        Nat.div_le_div_right (Nat.mul_le_mul_left _ (by omega))
    _ = limit_bytes := Nat.mul_div_cancel _ (by omega)

/-- Rewriting form of `NaiveDateTime.le`. -/
theorem NaiveDateTime.le_iff (a b : NaiveDateTime) :
    a.le b = true ↔ a.days < b.days ∨ (a.days = b.days ∧ a.secs ≤ b.secs) := by
  simp [NaiveDateTime.le, Nat.blt_eq, Nat.ble_eq]

/-- The event comparison of the sort is transitive. -/
theorem event_le_trans (a b c : VEvent) :
    event_le a b → event_le b c → event_le a c := by
  unfold event_le
  simp only [NaiveDateTime.le_iff]
  omega

/-- The event comparison of the sort is total. -/
theorem event_le_total (a b : VEvent) : event_le a b || event_le b a := by
  unfold event_le
  simp only [Bool.or_eq_true, NaiveDateTime.le_iff]
  omega

/-- Popping the just-appended element gives back the previous batch. -/
theorem dropLast_append_singleton {α : Type} (l : List α) (a : α) :
    (l ++ [a]).dropLast = l := by
  simp

/-- Lookup in an association list built by filtering a key list against a
property list: present keys resolve as in the property list, others to
nothing. -/
theorem lookup_filterMap_keys (props : List (String × String))
    (ks : List String) (n : String) :
    ((ks.filterMap fun a =>
        match props.lookup a with
        | some v => some (a, v)
        | none => none).lookup n)
      = if n ∈ ks then props.lookup n else none := by
  induction ks with
  | nil => simp
  | cons a ks ih =>
    cases h : props.lookup a with
    | none =>
      by_cases hn : n = a
      · subst hn
        by_cases hm : n ∈ ks <;> simp [List.filterMap_cons, h, ih, hm]
      · by_cases hm : n ∈ ks <;> simp [List.filterMap_cons, h, ih, hm, hn]
    | some v =>
      by_cases hn : n = a
      · subst hn; simp [List.filterMap_cons, h, List.lookup]
      · have hb : (n == a) = false := beq_eq_false_iff_ne.mpr hn
        simp [List.filterMap_cons, h, List.lookup, hn, ih, hb]

/-- Lookup in the precomputed replicated properties of lines 64-67. -/
theorem cal_properties_lookup (cal : VCalendar) (n : String) :
    (cal_properties cal).lookup n
      = if n ∈ ["VERSION", "PRODID", "CALSCALE", "METHOD"]
        then cal.props.lookup n else none :=
  lookup_filterMap_keys cal.props ["VERSION", "PRODID", "CALSCALE", "METHOD"] n

/-- Unfolding equation for the loop: final flush of a non-empty batch
(lines 113-122). -/
theorem split_loop_nil_flush (props : List (String × String))
    (base_name : String) (max_size : Nat) (last_event : Option VEvent)
    (cur : List VEvent) (k : Nat) (h : cur ≠ []) :
    split_loop props base_name max_size last_event [] cur k
      = [⟨output_file_name base_name k, cur,
          (create_calendar_with_events props cur).to_ical⟩] := by
  simp only [split_loop]
  rw [if_neg (by simpa using h)]

/-- Unfolding equation for the loop: nothing remains after the last write
(line 114 guard false). -/
theorem split_loop_nil_empty (props : List (String × String))
    (base_name : String) (max_size : Nat) (last_event : Option VEvent)
    (k : Nat) :
    split_loop props base_name max_size last_event [] [] k = [] := by
  simp [split_loop]

/-- Unfolding equation for the loop: a triggered write that pops the
just-appended event (lines 91-111 with the condition of line 93 true).  The
batch written is the previous one; the next batch re-evaluates the length
after the pop (line 106), so it keeps the popped event only when the written
batch held more than one event. -/
theorem split_loop_cons_pop (props : List (String × String))
    (base_name : String) (max_size : Nat) (last_event : Option VEvent)
    (event : VEvent) (rest cur : List VEvent) (k : Nat)
    (h2 : (create_calendar_with_events props (cur ++ [event])).to_ical.length ≥ max_size
        ∧ (cur ++ [event]).length > 1) :
    split_loop props base_name max_size last_event (event :: rest) cur k
      = ⟨output_file_name base_name k, cur,
          (create_calendar_with_events props cur).to_ical⟩
        :: split_loop props base_name max_size last_event rest
            (if (create_calendar_with_events props (cur ++ [event])).to_ical.length ≥ max_size
                ∧ cur.length > 1 then [event] else [])
            (k + 1) := by
  simp only [split_loop]
  rw [if_pos (Or.inl h2.1), if_pos h2, dropLast_append_singleton]

/-- Unfolding equation for the loop: a triggered write of the whole batch,
with no pop (lines 91-111 with the condition of line 93 false). -/
theorem split_loop_cons_write (props : List (String × String))
    (base_name : String) (max_size : Nat) (last_event : Option VEvent)
    (event : VEvent) (rest cur : List VEvent) (k : Nat)
    (h1 : (create_calendar_with_events props (cur ++ [event])).to_ical.length ≥ max_size
        ∨ some event = last_event)
    (h2 : ¬((create_calendar_with_events props (cur ++ [event])).to_ical.length ≥ max_size
        ∧ (cur ++ [event]).length > 1)) :
    split_loop props base_name max_size last_event (event :: rest) cur k
      = ⟨output_file_name base_name k, cur ++ [event],
          (create_calendar_with_events props (cur ++ [event])).to_ical⟩
        :: split_loop props base_name max_size last_event rest [] (k + 1) := by
  simp only [split_loop]
  rw [if_pos h1, if_neg h2]

/-- Unfolding equation for the loop: no trigger, the event stays in the batch
and no file is written at this step (line 91 condition false). -/
theorem split_loop_cons_skip (props : List (String × String))
    (base_name : String) (max_size : Nat) (last_event : Option VEvent)
    (event : VEvent) (rest cur : List VEvent) (k : Nat)
    (h1 : ¬((create_calendar_with_events props (cur ++ [event])).to_ical.length ≥ max_size
        ∨ some event = last_event)) :
    split_loop props base_name max_size last_event (event :: rest) cur k
      = split_loop props base_name max_size last_event rest (cur ++ [event]) k := by
  simp only [split_loop]
  rw [if_neg h1]

/-- Every file emitted by the loop holds exactly the serialization of its own
batch (lines 95-100 and 116-119 write `test_cal.to_ical()` for the batch the
file records). -/
theorem split_loop_bytes (props : List (String × String)) (base_name : String)
    (max_size : Nat) (last_event : Option VEvent) :
    ∀ (pending current_events : List VEvent) (file_counter : Nat),
      ∀ f ∈ split_loop props base_name max_size last_event pending
          current_events file_counter,
        f.bytes = (create_calendar_with_events props f.events).to_ical := by
  intro pending
  induction pending with
  | nil =>
    intro cur k f hf
    cases cur with
    | nil => simp [split_loop] at hf
    | cons a l =>
      simp [split_loop] at hf
      subst hf
      rfl
  | cons event rest ih =>
    intro cur k f hf
    simp only [split_loop] at hf
    split_ifs at hf with h1 h2 h3
    · rcases List.mem_cons.mp hf with hf | hf
      · subst hf; rfl
      · exact ih _ _ f hf
    · rcases List.mem_cons.mp hf with hf | hf
      · subst hf; rfl
      · exact ih _ _ f hf
    · rcases List.mem_cons.mp hf with hf | hf
      · subst hf; rfl
      · exact ih _ _ f hf
    · exact ih _ _ f hf

/-- Every file emitted by the loop holds a non-empty batch: a size-triggered
write pops only when more than one event is present (line 93), and the final
flush is guarded by a non-empty batch (line 114). -/
theorem split_loop_events_nonempty (props : List (String × String))
    (base_name : String) (max_size : Nat) (last_event : Option VEvent) :
    ∀ (pending current_events : List VEvent) (file_counter : Nat),
      ∀ f ∈ split_loop props base_name max_size last_event pending
          current_events file_counter,
        f.events ≠ [] := by
  intro pending
  induction pending with
  | nil =>
    intro cur k f hf
    cases cur with
    | nil => simp [split_loop] at hf
    | cons a l =>
      simp [split_loop] at hf
      subst hf
      simp
  | cons event rest ih =>
    intro cur k f hf
    simp only [split_loop] at hf
    split_ifs at hf with h1 h2 h3
    · rcases List.mem_cons.mp hf with hf | hf
      · subst hf
        show (cur ++ [event]).dropLast ≠ []
        rw [dropLast_append_singleton]
        intro hc
        rw [hc] at h2
        simp at h2
      · exact ih _ _ f hf
    · rcases List.mem_cons.mp hf with hf | hf
      · subst hf
        show (cur ++ [event]).dropLast ≠ []
        rw [dropLast_append_singleton]
        intro hc
        rw [hc] at h2
        simp at h2
      · exact ih _ _ f hf
    · rcases List.mem_cons.mp hf with hf | hf
      · subst hf
        simp
      · exact ih _ _ f hf
    · exact ih _ _ f hf

/-- The `i`-th file emitted by the loop (0-based) carries the counter value
`file_counter + i`: every write branch uses the current counter for the name
and advances it exactly once (lines 98, 111, 115). -/
theorem split_loop_fname (props : List (String × String)) (base_name : String)
    (max_size : Nat) (last_event : Option VEvent) :
    ∀ (pending current_events : List VEvent) (file_counter i : Nat)
      (f : OutputFile),
      (split_loop props base_name max_size last_event pending
          current_events file_counter)[i]? = some f →
      f.fname = output_file_name base_name (file_counter + i) := by
  intro pending
  induction pending with
  | nil =>
    intro cur k i f hf
    cases cur with
    | nil => simp [split_loop] at hf
    | cons a l =>
      cases i with
      | zero =>
        simp [split_loop] at hf
        rw [← hf]
        simp
      | succ j => simp [split_loop] at hf
  | cons event rest ih =>
    intro cur k i f hf
    by_cases h1 : (create_calendar_with_events props (cur ++ [event])).to_ical.length ≥ max_size
        ∨ some event = last_event
    · by_cases h2 : (create_calendar_with_events props (cur ++ [event])).to_ical.length ≥ max_size
          ∧ (cur ++ [event]).length > 1
      · rw [split_loop_cons_pop props base_name max_size last_event event rest cur k h2] at hf
        cases i with
        | zero =>
          simp at hf
          rw [← hf]
          simp
        | succ j =>
          simp only [List.getElem?_cons_succ] at hf
          rw [show k + (j + 1) = (k + 1) + j by omega]
          exact ih _ (k + 1) j f hf
      · rw [split_loop_cons_write props base_name max_size last_event event rest cur k h1 h2] at hf
        cases i with
        | zero =>
          simp at hf
          rw [← hf]
          simp
        | succ j =>
          simp only [List.getElem?_cons_succ] at hf
          rw [show k + (j + 1) = (k + 1) + j by omega]
          exact ih _ (k + 1) j f hf
    · rw [split_loop_cons_skip props base_name max_size last_event event rest cur k h1] at hf
      exact ih _ k i f hf

/-- Size invariant of the loop: provided the incoming batch, when it holds at
least two events, serializes strictly below the effective limit, every
emitted file either stays strictly below the effective limit or is the
serialization of a single event on its own.  (The invariant propagates: a
non-triggering step leaves a batch measured below the limit, and every write
resets the batch to at most one event.) -/
theorem split_loop_size (props : List (String × String)) (base_name : String)
    (max_size : Nat) (last_event : Option VEvent) :
    ∀ (pending current_events : List VEvent) (file_counter : Nat),
      (2 ≤ current_events.length →
        (create_calendar_with_events props current_events).to_ical.length < max_size) →
      ∀ f ∈ split_loop props base_name max_size last_event pending
          current_events file_counter,
        f.bytes.length < max_size
        ∨ ∃ e, f.events = [e]
            ∧ f.bytes = (create_calendar_with_events props [e]).to_ical := by
  intro pending
  induction pending with
  | nil =>
    intro cur k hinv f hf
    cases cur with
    | nil => simp [split_loop] at hf
    | cons a l =>
      rw [split_loop_nil_flush props base_name max_size last_event (a :: l) k
        (by simp)] at hf
      simp at hf
      subst hf
      cases l with
      | nil => exact Or.inr ⟨a, rfl, rfl⟩
      | cons b m =>
        left
        exact hinv (by simp)
  | cons event rest ih =>
    intro cur k hinv f hf
    by_cases h1 : (create_calendar_with_events props (cur ++ [event])).to_ical.length ≥ max_size
        ∨ some event = last_event
    · by_cases h2 : (create_calendar_with_events props (cur ++ [event])).to_ical.length ≥ max_size
          ∧ (cur ++ [event]).length > 1
      · rw [split_loop_cons_pop props base_name max_size last_event event rest cur k h2] at hf
        rcases List.mem_cons.mp hf with hf | hf
        · subst hf
          cases cur with
          | nil => simp at h2
          | cons a l =>
            cases l with
            | nil => exact Or.inr ⟨a, rfl, rfl⟩
            | cons b m =>
              left
              exact hinv (by simp)
        · refine ih _ (k + 1) ?_ f hf
          intro hl
          split at hl <;> simp at hl
      · rw [split_loop_cons_write props base_name max_size last_event event rest cur k h1 h2] at hf
        rcases List.mem_cons.mp hf with hf | hf
        · subst hf
          by_cases hs : (create_calendar_with_events props (cur ++ [event])).to_ical.length ≥ max_size
          · have hlen : ¬((cur ++ [event]).length > 1) := fun hl => h2 ⟨hs, hl⟩
            have hcur : cur = [] := by
              cases cur with
              | nil => rfl
              | cons a l => exact absurd (by simp) hlen
            subst hcur
            exact Or.inr ⟨event, rfl, rfl⟩
          · left
            show (create_calendar_with_events props (cur ++ [event])).to_ical.length < max_size
            omega
        · refine ih _ (k + 1) ?_ f hf
          intro hl
          simp at hl
    · rw [split_loop_cons_skip props base_name max_size last_event event rest cur k h1] at hf
      refine ih _ k ?_ f hf
      intro _
      push_neg at h1
      exact h1.1

/-- Inversion of a successful run: the parser succeeded, at least one event
was found, and the files are those of the batching loop started on the sorted
events with an empty batch and counter 1 (lines 79-84). -/
theorem split_ics_file_ok_inv (input_file contents : String) (max_size : Nat)
    (files : List OutputFile)
    (hok : split_ics_file input_file contents max_size = .ok files) :
    ∃ cal, from_ical contents = .ok cal
      ∧ events_of cal ≠ []
      ∧ files = split_loop (cal_properties cal) (splitext input_file).1 max_size
          (sort_events (events_of cal)).getLast? (sort_events (events_of cal)) [] 1 := by
  cases hp : from_ical contents with
  | error msg => simp [split_ics_file, hp] at hok
  | ok cal =>
    simp only [split_ics_file, hp] at hok
    by_cases he : (events_of cal).isEmpty = true
    · rw [if_pos he] at hok
      simp at hok
    · rw [if_neg he] at hok
      simp only [SplitResult.ok.injEq] at hok
      exact ⟨cal, rfl, by simpa using he, hok.symm⟩

/-- C7: a parseable input with zero events yields the no-events outcome:
zero output files and success, not an error (lines 55-58). -/
theorem split_empty_input (input_file contents : String) (max_size : Nat)
    (cal : VCalendar) (hparse : from_ical contents = .ok cal)
    (hev : events_of cal = []) :
    split_ics_file input_file contents max_size = .noEvents
    ∧ (split_ics_file input_file contents max_size).filesWritten = []
    ∧ (split_ics_file input_file contents max_size).isSuccess = true := by
  have h : split_ics_file input_file contents max_size = .noEvents := by
    simp [split_ics_file, hparse, hev]
  exact ⟨h, by rw [h]; rfl, by rw [h]; rfl⟩

/-- Witness for C7 at the concrete zero-event input `empty_contents`. -/
theorem split_empty_input_witness :
    split_ics_file "cal.ics" empty_contents 1000 = .noEvents
    ∧ (split_ics_file "cal.ics" empty_contents 1000).filesWritten = []
    ∧ (split_ics_file "cal.ics" empty_contents 1000).isSuccess = true :=
  split_empty_input "cal.ics" empty_contents 1000 ⟨[("VERSION", "2.0")], []⟩
    (by rfl) (by rfl)

/-- C8: a parse failure propagates as the `MalformedDocument` outcome of the
whole run, with no output file written (line 52 raises before any write). -/
theorem split_parse_failure (input_file contents : String) (max_size : Nat)
    (msg : String) (hparse : from_ical contents = .error msg) :
    split_ics_file input_file contents max_size = .parseError msg
    ∧ (split_ics_file input_file contents max_size).filesWritten = []
    ∧ (split_ics_file input_file contents max_size).isSuccess = false := by
  have h : split_ics_file input_file contents max_size = .parseError msg := by
    simp [split_ics_file, hparse]
  exact ⟨h, by rw [h]; rfl, by rw [h]; rfl⟩

/-- Witness for C8 at a concrete unparseable input. -/
theorem split_parse_failure_witness :
    split_ics_file "cal.ics" "garbage" 1000
      = .parseError "MalformedDocument: missing BEGIN:VCALENDAR"
    ∧ (split_ics_file "cal.ics" "garbage" 1000).filesWritten = []
    ∧ (split_ics_file "cal.ics" "garbage" 1000).isSuccess = false :=
  split_parse_failure "cal.ics" "garbage" 1000
    "MalformedDocument: missing BEGIN:VCALENDAR" (by rfl)

/-- C9: the whole split is deterministic — identical input path, bytes and
limit give identical results, byte-identical file contents included (the
embedding of lines 42-122 is a pure function; the Serializer is deterministic
by its contract, spec §4.4). -/
theorem split_deterministic (input_file₁ contents₁ : String) (max_size₁ : Nat)
    (input_file₂ contents₂ : String) (max_size₂ : Nat)
    (hi : input_file₁ = input_file₂) (hc : contents₁ = contents₂)
    (hm : max_size₁ = max_size₂) :
    split_ics_file input_file₁ contents₁ max_size₁
      = split_ics_file input_file₂ contents₂ max_size₂ := by
  rw [hi, hc, hm]

/-- Witness for C9 at a concrete input. -/
theorem split_deterministic_witness :
    split_ics_file "cal.ics" one_contents 1000
      = split_ics_file "cal.ics" one_contents 1000 :=
  split_deterministic "cal.ics" one_contents 1000 "cal.ics" one_contents 1000
    rfl rfl rfl

/-- C10: every output file of a successful run holds at least one event. -/
theorem split_files_nonempty (input_file contents : String) (max_size : Nat)
    (files : List OutputFile)
    (hok : split_ics_file input_file contents max_size = .ok files)
    (f : OutputFile) (hf : f ∈ files) :
    f.events ≠ [] := by
  obtain ⟨cal, -, -, hfiles⟩ :=
    split_ics_file_ok_inv input_file contents max_size files hok
  subst hfiles
  exact split_loop_events_nonempty _ _ _ _ _ _ _ f hf

/-- Witness for C10 at the concrete one-event input `one_contents`. -/
theorem split_files_nonempty_witness :
    (⟨"cal_part1.ics", [evA], one_contents⟩ : OutputFile).events ≠ [] :=
  split_files_nonempty "cal.ics" one_contents 1000
    [⟨"cal_part1.ics", [evA], one_contents⟩] (by rfl) _ (by simp)

/-- C5: the sort key of an event examines `DTSTART`, `DTSTAMP`, `CREATED` in
that fixed priority order and converts the first present value — a pure date
is combined with midnight, a timezone-aware datetime keeps its wall-clock
reading with the offset stripped, a naive datetime is kept as is — and an
event with none of the three fields gets the minimum representable value
(`get_event_date` is a Lean function, hence pure). -/
theorem get_event_date_spec :
    (∀ (e : VEvent) (dv : DateValue),
        e.dateProps.lookup "DTSTART" = some dv →
        get_event_date e = convert_dt dv)
    ∧ (∀ (e : VEvent) (dv : DateValue),
        e.dateProps.lookup "DTSTART" = none →
        e.dateProps.lookup "DTSTAMP" = some dv →
        get_event_date e = convert_dt dv)
    ∧ (∀ (e : VEvent) (dv : DateValue),
        e.dateProps.lookup "DTSTART" = none →
        e.dateProps.lookup "DTSTAMP" = none →
        e.dateProps.lookup "CREATED" = some dv →
        get_event_date e = convert_dt dv)
    ∧ (∀ e : VEvent,
        e.dateProps.lookup "DTSTART" = none →
        e.dateProps.lookup "DTSTAMP" = none →
        e.dateProps.lookup "CREATED" = none →
        get_event_date e = datetime_min)
    ∧ (∀ d : Nat, convert_dt (.dateOnly d) = ⟨d, 0⟩)
    ∧ (∀ (dt : NaiveDateTime) (off : Int), convert_dt (.awareDT dt off) = dt)
    ∧ (∀ dt : NaiveDateTime, convert_dt (.naiveDT dt) = dt)
    ∧ (∀ x : NaiveDateTime, datetime_min.le x = true) := by
  refine ⟨?_, ?_, ?_, ?_, fun d => rfl, fun dt off => rfl, fun dt => rfl, ?_⟩
  · intro e dv h
    simp [get_event_date, get_event_date_fields, h]
  · intro e dv h1 h2
    simp [get_event_date, get_event_date_fields, h1, h2]
  · intro e dv h1 h2 h3
    simp [get_event_date, get_event_date_fields, h1, h2, h3]
  · intro e h1 h2 h3
    simp [get_event_date, get_event_date_fields, h1, h2, h3]
  · intro x
    rw [NaiveDateTime.le_iff]
    show 0 < x.days ∨ 0 = x.days ∧ 0 ≤ x.secs
    omega

/-- Witness for C5 at concrete events exercising the priority order, the
date-to-midnight conversion and the missing-fields default. -/
theorem get_event_date_spec_witness :
    get_event_date ⟨[("DTSTART", DateValue.dateOnly 7)], []⟩ = ⟨7, 0⟩
    ∧ get_event_date ⟨[("CREATED", DateValue.naiveDT ⟨3, 4⟩)], []⟩ = ⟨3, 4⟩
    ∧ get_event_date ⟨[], [("SUMMARY", "x")]⟩ = datetime_min :=
  ⟨(get_event_date_spec.1 ⟨[("DTSTART", DateValue.dateOnly 7)], []⟩
      (DateValue.dateOnly 7) (by rfl)).trans (by rfl),
   (get_event_date_spec.2.2.1 ⟨[("CREATED", DateValue.naiveDT ⟨3, 4⟩)], []⟩
      (DateValue.naiveDT ⟨3, 4⟩) (by rfl) (by rfl) (by rfl)).trans (by rfl),
   get_event_date_spec.2.2.2.1 ⟨[], [("SUMMARY", "x")]⟩
      (by rfl) (by rfl) (by rfl)⟩

/-- C1: the completeness/ordering claim fails on the code.  At the input
`two_contents` (events `evA` then `evB`; each single-event document is
71 bytes, the two-event document 112 bytes) with effective limit 100 (e.g.
configured limit 106 bytes), appending `evB` trips the size check, line 93
pops it from the two-element batch, and line 106 — re-reading the length
after the pop — finds a one-element batch and resets to `[]`, so `evB` is
never written: the concatenated output events are `[evA]`, not the sorted
input `[evA, evB]`. -/
theorem split_event_loss_at_failing_input :
    from_ical two_contents = .ok ⟨[], [.vevent evA, .vevent evB]⟩
    ∧ sort_events [evA, evB] = [evA, evB]
    ∧ effective_max_size 106 = 100
    ∧ ((split_ics_file "cal.ics" two_contents 100).filesWritten.map
        OutputFile.events).flatten = [evA]
    ∧ evB ∉ ((split_ics_file "cal.ics" two_contents 100).filesWritten.map
        OutputFile.events).flatten :=
  ⟨by rfl, by rfl, by rfl, by rfl, by decide⟩

/-- C2: every output file of a run with configured limit `limit_bytes`
(effective limit as at line 48) either stays within the configured limit or
is exactly the document of one single event — so a file exceeds the limit
only when that event's own serialized document already does, and such a file
contains that one event and nothing more. -/
theorem split_size_bound (input_file contents : String) (limit_bytes : Nat)
    (cal : VCalendar) (files : List OutputFile)
    (hparse : from_ical contents = .ok cal)
    (hok : split_ics_file input_file contents (effective_max_size limit_bytes)
        = .ok files)
    (f : OutputFile) (hf : f ∈ files) :
    f.bytes.length ≤ limit_bytes
    ∨ (∃ e, f.events = [e]
        ∧ f.bytes = (create_calendar_with_events (cal_properties cal) [e]).to_ical
        ∧ limit_bytes
            < (create_calendar_with_events (cal_properties cal) [e]).to_ical.length) := by
  obtain ⟨cal', hp', -, hfiles⟩ :=
    split_ics_file_ok_inv input_file contents (effective_max_size limit_bytes) files hok
  rw [hparse] at hp'
  obtain rfl : cal = cal' := by
    simpa using hp'
  subst hfiles
  have h := split_loop_size (cal_properties cal) (splitext input_file).1
    (effective_max_size limit_bytes) (sort_events (events_of cal)).getLast?
    (sort_events (events_of cal)) [] 1 (fun hl => absurd hl (by simp)) f hf
  rcases h with h | ⟨e, he, hb⟩
  · exact Or.inl (le_trans (Nat.le_of_lt h) (effective_max_size_le limit_bytes))
  · by_cases hle : f.bytes.length ≤ limit_bytes
    · exact Or.inl hle
    · refine Or.inr ⟨e, he, hb, ?_⟩
      rw [← hb]
      omega

/-- Witness for C2 at the concrete input `one_contents` with configured limit
10 bytes: the single 71-byte file exceeds the limit, so the single-oversized-
event disjunct holds. -/
theorem split_size_bound_witness :
    (⟨"cal_part1.ics", [evA], one_contents⟩ : OutputFile).bytes.length ≤ 10
    ∨ (∃ e, (⟨"cal_part1.ics", [evA], one_contents⟩ : OutputFile).events = [e]
        ∧ (⟨"cal_part1.ics", [evA], one_contents⟩ : OutputFile).bytes
            = (create_calendar_with_events
                (cal_properties ⟨[], [Component.vevent evA]⟩) [e]).to_ical
        ∧ 10 < (create_calendar_with_events
                (cal_properties ⟨[], [Component.vevent evA]⟩) [e]).to_ical.length) :=
  split_size_bound "cal.ics" one_contents 10 ⟨[], [Component.vevent evA]⟩
    [⟨"cal_part1.ics", [evA], one_contents⟩] (by rfl) (by rfl) _ (by simp)

/-- C3 counterexample: at the input path `dir/cal.ical`, the file written is
named `dir/cal_part1.ics` — the directory part is kept (line 81 removes only
the extension) and the extension is the literal `.ics` (line 98) — whereas
the claim's naming rule yields `cal_part1.ical`. -/
theorem split_file_name_cex :
    (split_ics_file "dir/cal.ical" one_contents 1000).filesWritten.map
        OutputFile.fname = ["dir/cal_part1.ics"]
    ∧ claim_file_name "dir/cal.ical" 1 = "cal_part1.ical"
    ∧ ("dir/cal_part1.ics" : String) ≠ "cal_part1.ical" :=
  ⟨by rfl, by rfl, by decide⟩

/-- C3 as amended: the k-th file written (1-based) is named by removing only
the extension from the input path (the directory part is kept), then
appending `_part`, the counter value k, and the fixed extension `.ics`; the
counter starts at 1 and increments exactly once per file written, in every
write branch. -/
theorem split_file_names (input_file contents : String) (max_size : Nat)
    (files : List OutputFile)
    (hok : split_ics_file input_file contents max_size = .ok files)
    (i : Nat) (f : OutputFile) (hi : files[i]? = some f) :
    f.fname = (splitext input_file).1 ++ "_part" ++ Nat.repr (1 + i) ++ ".ics" := by
  obtain ⟨cal, -, -, hfiles⟩ :=
    split_ics_file_ok_inv input_file contents max_size files hok
  subst hfiles
  exact split_loop_fname _ _ _ _ _ _ 1 i f hi

/-- Witness for C3-as-amended at the concrete two-file run on `dup_contents`,
second file (i = 1, counter value 2). -/
theorem split_file_names_witness :
    (⟨"cal_part2.ics", [evA], one_contents⟩ : OutputFile).fname
      = (splitext "cal.ics").1 ++ "_part" ++ Nat.repr (1 + 1) ++ ".ics" :=
  split_file_names "cal.ics" dup_contents 1000
    [⟨"cal_part1.ics", [evA], one_contents⟩,
     ⟨"cal_part2.ics", [evA], one_contents⟩]
    (by rfl) 1 _ (by rfl)

/-- C4 counterexample: on `dup_contents` — two byte-identical events whose
documents all stay far below the limit 1000 — the code writes a file already
at position 0 (the first event compares equal to `events[-1]` at line 91),
producing two one-event files, while the claim's position-based trigger
(`claim_split_loop` on the same sorted events, properties, base name and
limit) writes exactly one file holding both events. -/
theorem split_flush_trigger_cex :
    from_ical dup_contents = .ok ⟨[], [.vevent evA, .vevent evA]⟩
    ∧ sort_events [evA, evA] = [evA, evA]
    ∧ (create_calendar_with_events [] [evA]).to_ical.length < 1000
    ∧ (split_ics_file "cal.ics" dup_contents 1000).filesWritten.map
        OutputFile.events = [[evA], [evA]]
    ∧ claim_split_loop (cal_properties ⟨[], [.vevent evA, .vevent evA]⟩)
        (splitext "cal.ics").1 1000 (sort_events [evA, evA]) [] 1
        = [⟨"cal_part1.ics", [evA, evA], dup_contents⟩] :=
  ⟨by rfl, by rfl, by decide, by rfl, by rfl⟩

/-- C4 as amended: during the iteration a batch is written at a step exactly
when the measured size of the batch including the current event reaches the
effective limit, or the current event is equal — by value, line 91's Python
`==` — to the last event of the sorted list (so a duplicate of the last event
triggers a write before the last position); at every other step no file is
written and the batch simply grows. -/
theorem split_flush_trigger (props : List (String × String))
    (base_name : String) (max_size : Nat) (last_event : Option VEvent)
    (event : VEvent) (rest cur : List VEvent) (k : Nat) :
    ((create_calendar_with_events props (cur ++ [event])).to_ical.length < max_size →
      some event ≠ last_event →
      split_loop props base_name max_size last_event (event :: rest) cur k
        = split_loop props base_name max_size last_event rest (cur ++ [event]) k)
    ∧ ((create_calendar_with_events props (cur ++ [event])).to_ical.length ≥ max_size
          ∨ some event = last_event →
      ∃ f tail, split_loop props base_name max_size last_event (event :: rest) cur k
          = f :: tail ∧ f.fname = output_file_name base_name k) := by
  constructor
  · intro hs hl
    refine split_loop_cons_skip props base_name max_size last_event event rest cur k ?_
    push_neg
    exact ⟨by omega, hl⟩
  · intro h1
    by_cases h2 : (create_calendar_with_events props (cur ++ [event])).to_ical.length ≥ max_size
        ∧ (cur ++ [event]).length > 1
    · exact ⟨_, _, split_loop_cons_pop props base_name max_size last_event event rest cur k h2, rfl⟩
    · exact ⟨_, _, split_loop_cons_write props base_name max_size last_event event rest cur k h1 h2, rfl⟩

/-- Witness for C4-as-amended: a concrete non-triggering step writes nothing,
and a concrete triggering step writes a file named with the current counter. -/
theorem split_flush_trigger_witness :
    (split_loop [] "cal" 1000 (some evB) [evA] [] 1
        = split_loop [] "cal" 1000 (some evB) [] [evA] 1)
    ∧ (∃ f tail, split_loop [] "cal" 0 (some evB) [evA] [] 1 = f :: tail
        ∧ f.fname = output_file_name "cal" 1) :=
  ⟨(split_flush_trigger [] "cal" 1000 (some evB) evA [] [] 1).1
      (by decide) (by decide),
   (split_flush_trigger [] "cal" 0 (some evB) evA [] [] 1).2
      (by decide)⟩

/-- C6: every output file is the serialization of a document whose top-level
properties are exactly the precomputed `cal_properties` of the input — for
each of `VERSION`, `PRODID`, `CALSCALE`, `METHOD` the replicated value equals
the input calendar's (present ones carried identically, in every file alike),
and every other property name is absent from the replicated set. -/
theorem split_metadata_replication (input_file contents : String)
    (max_size : Nat) (cal : VCalendar) (files : List OutputFile)
    (hparse : from_ical contents = .ok cal)
    (hok : split_ics_file input_file contents max_size = .ok files)
    (f : OutputFile) (hf : f ∈ files) :
    f.bytes = (create_calendar_with_events (cal_properties cal) f.events).to_ical
    ∧ (∀ p ∈ ["VERSION", "PRODID", "CALSCALE", "METHOD"],
        (cal_properties cal).lookup p = cal.props.lookup p)
    ∧ (∀ p : String, p ∉ ["VERSION", "PRODID", "CALSCALE", "METHOD"] →
        (cal_properties cal).lookup p = none) := by
  obtain ⟨cal', hp', -, hfiles⟩ :=
    split_ics_file_ok_inv input_file contents max_size files hok
  rw [hparse] at hp'
  obtain rfl : cal = cal' := by simpa using hp'
  subst hfiles
  refine ⟨split_loop_bytes _ _ _ _ _ _ _ f hf, ?_, ?_⟩
  · intro p hp
    rw [cal_properties_lookup]
    exact if_pos hp
  · intro p hp
    rw [cal_properties_lookup]
    exact if_neg hp

/-- Witness for C6 at the concrete input `ver_contents` (a `VERSION` property
and one event): the file's bytes are the replicated-properties document, the
present `VERSION` is carried identically, and an absent name stays absent. -/
theorem split_metadata_replication_witness :
    (⟨"cal_part1.ics", [evA], ver_contents⟩ : OutputFile).bytes
      = (create_calendar_with_events
          (cal_properties ⟨[("VERSION", "2.0")], [Component.vevent evA]⟩)
          (⟨"cal_part1.ics", [evA], ver_contents⟩ : OutputFile).events).to_ical
    ∧ (cal_properties ⟨[("VERSION", "2.0")], [Component.vevent evA]⟩).lookup "VERSION"
        = (⟨[("VERSION", "2.0")], [Component.vevent evA]⟩ : VCalendar).props.lookup "VERSION"
    ∧ (cal_properties ⟨[("VERSION", "2.0")], [Component.vevent evA]⟩).lookup "X-WR-CALNAME"
        = none := by
  have h := split_metadata_replication "cal.ics" ver_contents 1000
    ⟨[("VERSION", "2.0")], [Component.vevent evA]⟩
    [⟨"cal_part1.ics", [evA], ver_contents⟩] (by rfl) (by rfl)
    ⟨"cal_part1.ics", [evA], ver_contents⟩ (by simp)
  exact ⟨h.1, h.2.1 "VERSION" (by simp), h.2.2 "X-WR-CALNAME" (by simp)⟩

end CalSplit
